import Mathlib

/-! Verification of the container lifecycle and I/O core of gitwit-agent
(src/container.ts and the Docker section of src/app.js), as a shallow
embedding: each operation is modelled by the sequence of runtime-capability
calls it performs and by explicit event sequences for the streams it waits
on. -/

namespace Gitwit

/-- Request object passed to the runtime creation endpoint by createContainer
(container.ts lines 5 to 14): image tag, environment entries, TTY flag, entry
command and open-stdin flag. -/
structure CreateRequest where
  Image : String
  Env : List String
  Tty : Bool
  Cmd : List String
  OpenStdin : Bool
deriving DecidableEq

/-- Model of createContainer (container.ts lines 5 to 14, duplicated in app.js
lines 75 to 84): it builds the creation request from the tag and environment,
with TTY allocated, stdin kept open and the fixed entry command /bin/sh. -/
def createContainer (tag : String) (environment : List String) : CreateRequest :=
  { Image := tag
    Env := environment
    Tty := true
    Cmd := ["/bin/sh"]
    OpenStdin := true }

/-- Options object of a container stop call. -/
structure StopOptions where
  force : Bool
deriving DecidableEq

/-- Static description of the SIGINT handler closure: which stop options its
body passes, and whether its body contains a process exit call. -/
structure SigintHandlerSpec where
  stopOptions : StopOptions
  exitsProcess : Bool
deriving DecidableEq

/-- Options object of the log-stream call issued by startContainer. -/
structure LogsOptions where
  follow : Bool
  stdout : Bool
  stderr : Bool
deriving DecidableEq

/-- Actions performed by startContainer, in program order. -/
inductive StartAction where
  | registerSigint (h : SigintHandlerSpec)
  | startCall
  | logsCall (o : LogsOptions)
  | subscribeLogData
deriving DecidableEq

/-- Model of the SIGINT handler closure registered by startContainer
(container.ts lines 17 to 20): its body logs a message and awaits
container.stop with force true; it contains no process exit call and no error
handling, so a failure of the stop call is an unhandled rejection. -/
def registeredHandler : SigintHandlerSpec :=
  { stopOptions := { force := true }, exitsProcess := false }

/-- Model of startContainer (container.ts lines 16 to 29) as its sequence of
actions in program order: register the SIGINT handler, then issue the start
call, then open the combined follow-mode log stream and subscribe to its data
events. -/
def startContainer : List StartAction :=
  [StartAction.registerSigint registeredHandler,
   StartAction.startCall,
   StartAction.logsCall { follow := true, stdout := true, stderr := true },
   StartAction.subscribeLogData]

/-- Events an output stream can emit after the completion listener is
attached: a data chunk, the terminal end event, or an asynchronous error
event. -/
inductive StreamEvent where
  | data (chunk : String)
  | endEvent
  | errorEvent (msg : String)
deriving DecidableEq

/-- Outcome of the completion wait: resolution at a given event index,
rejection with an error, or a wait that never settles. -/
inductive WaitOutcome where
  | resolved (i : Nat)
  | rejected (msg : String)
  | pending
deriving DecidableEq

/-- Shift a resolution index by one position, leaving rejection and pending
outcomes unchanged; used to count the events emitted before the end event. -/
def bumpIndex : WaitOutcome → WaitOutcome
  | WaitOutcome.resolved i => WaitOutcome.resolved (i + 1)
  | o => o

/-- Outcome of the end listener installed by waitForStreamEnd over the event
sequence the stream emits: it resolves at the first end event and at nothing
else — data and error events are not listened for, so a sequence without an
end event leaves the wait pending forever. -/
def waitEvents : List StreamEvent → WaitOutcome
  | [] => WaitOutcome.pending
  | StreamEvent.endEvent :: _ => WaitOutcome.resolved 0
  | _ :: rest => bumpIndex (waitEvents rest)

/-- Model of waitForStreamEnd (container.ts lines 31 to 41). The stream is
represented by whether attaching the end listener itself throws synchronously
(the only failure the try block around the registration can catch) together
with the sequence of events emitted after the listener is attached. Only a
synchronous registration failure reaches the reject path; otherwise the
returned promise settles exactly as the end listener dictates. -/
def waitForStreamEnd (registrationFailure : Option String)
    (events : List StreamEvent) : WaitOutcome :=
  match registrationFailure with
  | some e => WaitOutcome.rejected e
  | none => waitEvents events

/-- Exec-session request built by runCommandInContainer (container.ts lines 43
to 47). -/
structure ExecRequest where
  Cmd : List String
  AttachStdout : Bool
  AttachStderr : Bool
deriving DecidableEq

/-- Options of the exec-session start call (container.ts line 48). -/
structure ExecStartOptions where
  hijack : Bool
  stdin : Bool
deriving DecidableEq

/-- Everything one call of runCommandInContainer does: the exec request it
issues, the options it starts the session with, and the outcome of its
completion wait on the session output stream. -/
structure ExecRun where
  request : ExecRequest
  startOptions : ExecStartOptions
  outcome : WaitOutcome
deriving DecidableEq

/-- Model of runCommandInContainer (container.ts lines 42 to 53): it requests
an exec session bound to the command with combined stdout and stderr, starts
it hijacked with stdin attached, subscribes to data events, and then awaits
waitForStreamEnd on the session stream; the call completes exactly when that
wait resolves. -/
def runCommandInContainer (command : List String)
    (registrationFailure : Option String) (events : List StreamEvent) : ExecRun :=
  { request := { Cmd := command, AttachStdout := true, AttachStderr := true }
    startOptions := { hijack := true, stdin := true }
    outcome := waitForStreamEnd registrationFailure events }

/-- Model of path.basename for POSIX paths with no extension argument: the
last path component, ignoring trailing separators. -/
def basename (p : String) : String :=
  let cs := p.toList
  let trimmed := (cs.reverse.dropWhile (fun c => c == '/')).reverse
  (trimmed.reverse.takeWhile (fun c => c != '/')).reverse.asString

/-- Model of path.dirname for POSIX paths: strip trailing separators, drop the
last component, strip trailing separators again; an empty remainder is the
root for absolute paths and the current directory otherwise. -/
def dirname (p : String) : String :=
  let cs := p.toList
  let isAbs := cs.head? == some '/'
  let trimmed := (cs.reverse.dropWhile (fun c => c == '/')).reverse
  let parent := (trimmed.reverse.dropWhile (fun c => c != '/')).reverse
  let cleaned := (parent.reverse.dropWhile (fun c => c == '/')).reverse
  if cleaned.isEmpty then (if isAbs then "/" else ".") else cleaned.asString

/-- Options object passed to tar.create (container.ts line 57). -/
structure TarCreateOptions where
  gzip : Bool
  portable : Bool
  cwd : String
deriving DecidableEq

/-- Calls performed by copyFileToContainer, in program order: build the (lazy)
archive stream with tar.create, then submit it to the archive-extraction
capability of the handle. -/
inductive CopyAction where
  | tarCreate (opts : TarCreateOptions) (entries : List String)
  | putArchive (destPath : String)
deriving DecidableEq

/-- Model of copyFileToContainer (container.ts lines 55 to 59) as the sequence
of calls it performs. The function never consults the local filesystem before
acting: tar.create is lazy, so the archive handle exists even when the entry
file is missing, and putArchive is invoked unconditionally. The fs argument
represents the local filesystem (true at a path that exists) only so that
properties about missing files can be stated; the source never reads it. -/
def copyFileToContainer (fs : String → Bool)
    (localFilePath containerFilePath : String) : List CopyAction :=
  [CopyAction.tarCreate
      { gzip := false, portable := true, cwd := dirname localFilePath }
      [basename localFilePath],
   CopyAction.putArchive containerFilePath]

/-- States of the single container managed by one invocation. -/
inductive ContainerState where
  | created
  | running
  | stopped
  | removed
deriving DecidableEq

/-- Model of the stop operation of the runtime endpoint (the external
collaborator of spec section 6). The Docker Engine API answers a stop request
for a container that is not running with status 304, container already
stopped, and the dockerode client used by the source maps status 304 to an
error rather than to success; a stop of a removed container is not found. -/
def stopCall : ContainerState → Except String ContainerState
  | ContainerState.running => Except.ok ContainerState.stopped
  | ContainerState.removed => Except.error "no such container"
  | _ => Except.error "container already stopped"

/-- Model of the remove operation of the runtime endpoint: removing a running
container is refused with a conflict, removing a removed one is not found. -/
def removeCall : ContainerState → Except String ContainerState
  | ContainerState.running => Except.error "conflict"
  | ContainerState.removed => Except.error "no such container"
  | _ => Except.ok ContainerState.removed

/-- Model of the epilogue of main (app.js lines 224 to 227): it awaits
container.stop and then container.remove with no surrounding error handling,
so any error response from either call propagates and aborts the
invocation. -/
def runMainTail (st : ContainerState) : Except String ContainerState := do
  let st2 ← stopCall st
  removeCall st2

/-- Effect of firing the registered SIGINT handler with the container in the
given state: its body issues the stop call on the container. The force flag is
passed as a request option and does not change the response for a container
that is not running. -/
def sigintHandlerRun (st : ContainerState) : Except String ContainerState :=
  stopCall st

/-- Whether firing the SIGINT handler in the given state produces an unhandled
rejection: the handler body awaits the stop call with no catch, so an error
from the stop call is unhandled, and an unhandled rejection terminates the
Node process by default. -/
def sigintHandlerCrashes (st : ContainerState) : Bool :=
  match sigintHandlerRun st with
  | Except.error _ => true
  | Except.ok _ => false

/-- Container operations issued by the non-dry-run branch of main. -/
inductive Op where
  | start
  | execCmd (command : List String)
  | copy (localPath destPath : String)
  | stopOp
  | removeOp
deriving DecidableEq

/-- The operation sequence of the non-dry-run branch of main (app.js lines 215
to 227), after the container has been created: start, make the home
directory, copy the generated build script, copy the helper script, run the
helper script, stop, remove. -/
def mainOps : List Op :=
  [Op.start,
   Op.execCmd ["mkdir", "/app/"],
   Op.copy "./build/build.sh" "/app/",
   Op.copy "./create_github_repo.sh" "/app/",
   Op.execCmd ["bash", "/app/create_github_repo.sh"],
   Op.stopOp,
   Op.removeOp]

/-- Run a sequence of awaited operations the way the async main body does:
each operation is awaited in order and there is no try or catch, so the first
error aborts the run immediately. Returns the operations actually attempted
and the final outcome. -/
def runOps (runtime : Op → Except String Unit) : List Op → List Op × Except String Unit
  | [] => ([], Except.ok ())
  | op :: rest =>
    match runtime op with
    | Except.ok _ =>
      let r := runOps runtime rest
      (op :: r.1, r.2)
    | Except.error e => ([op], Except.error e)

/-- A runtime on which the first exec call fails and every other operation
succeeds. -/
def failingExecRuntime : Op → Except String Unit :=
  fun op =>
    match op with
    | Op.execCmd _ => Except.error "exec failed"
    | _ => Except.ok ()

/-- A runtime on which every operation succeeds. -/
def allOkRuntime : Op → Except String Unit :=
  fun _ => Except.ok ()

/-- Whether a wait outcome is a rejection. -/
def isRejected : WaitOutcome → Bool
  | WaitOutcome.rejected _ => true
  | _ => false

end Gitwit

namespace Gitwit

/-- C1: for every command vector and every stream that emits N data chunks and
then its end event, runCommandInContainer resolves exactly at the end event,
at index N — after every chunk, never earlier. -/
theorem runCommand_resolves_only_at_end (command : List String) (chunks : List String) :
    (runCommandInContainer command none
        (chunks.map StreamEvent.data ++ [StreamEvent.endEvent])).outcome
      = WaitOutcome.resolved chunks.length := by
  show waitEvents (chunks.map StreamEvent.data ++ [StreamEvent.endEvent])
      = WaitOutcome.resolved chunks.length
  induction chunks with
  | nil => rfl
  | cons c cs ih =>
      have hb : waitEvents
            (StreamEvent.data c :: (cs.map StreamEvent.data ++ [StreamEvent.endEvent]))
          = bumpIndex (waitEvents (cs.map StreamEvent.data ++ [StreamEvent.endEvent])) := rfl
      simp only [List.map_cons, List.cons_append, hb, ih, bumpIndex, List.length_cons]

/-- C2: startContainer registers the process-level SIGINT handler strictly
before issuing the container start call, the registered handler stops the
container with force true, and the handler body does not terminate the
process. -/
theorem start_registers_interrupt_handler_first :
    startContainer.findIdx
        (fun a => match a with | StartAction.registerSigint _ => true | _ => false)
      < startContainer.findIdx
        (fun a => match a with | StartAction.startCall => true | _ => false)
    ∧ StartAction.registerSigint registeredHandler ∈ startContainer
    ∧ registeredHandler.stopOptions.force = true
    ∧ registeredHandler.exitsProcess = false := by
  decide

/-- C3 counterexample: a stream that emits an asynchronous error event is not
rejected by the completion wait — if the end event arrives later the wait
resolves successfully, and if no end event ever arrives the wait stays pending
forever; in neither case does the error surface. -/
theorem stream_error_not_surfaced :
    waitForStreamEnd none [StreamEvent.errorEvent "boom", StreamEvent.endEvent]
        = WaitOutcome.resolved 1
    ∧ waitForStreamEnd none [StreamEvent.errorEvent "boom"] = WaitOutcome.pending := by
  decide

/-- C3 amended: the completion wait never rejects on asynchronous stream
events, whatever the stream emits; only a synchronous failure of the listener
registration itself can reach the reject path, so an error event emitted
before end does not surface through exec. -/
theorem async_stream_error_never_rejects (events : List StreamEvent) :
    isRejected (waitForStreamEnd none events) = false := by
  show isRejected (waitEvents events) = false
  induction events with
  | nil => rfl
  | cons e rest ih =>
      cases e with
      | data c =>
          have hb : waitEvents (StreamEvent.data c :: rest)
              = bumpIndex (waitEvents rest) := rfl
          rw [hb]
          cases h : waitEvents rest with
          | resolved i => rfl
          | rejected m => rw [h] at ih; exact ih
          | pending => rfl
      | endEvent => rfl
      | errorEvent m =>
          have hb : waitEvents (StreamEvent.errorEvent m :: rest)
              = bumpIndex (waitEvents rest) := rfl
          rw [hb]
          cases h : waitEvents rest with
          | resolved i => rfl
          | rejected m2 => rw [h] at ih; exact ih
          | pending => rfl

/-- C4 counterexample: on a filesystem where the local path does not exist,
copyFileToContainer still invokes the archive-extraction capability of the
handle. -/
theorem copy_missing_file_still_calls_putArchive :
    CopyAction.putArchive "/app/"
      ∈ copyFileToContainer (fun _ => false) "/no/such/file" "/app/" := by
  decide

/-- C4 amended: copyFileToContainer performs no existence check — for every
filesystem, including one on which the local path does not exist, it builds
the lazy archive and invokes putArchive unconditionally, so a missing-file
failure can surface only through the archive stream during the transfer, not
before the capability call. -/
theorem copy_always_invokes_putArchive (fs : String → Bool)
    (localPath destPath : String) :
    copyFileToContainer fs localPath destPath
      = [CopyAction.tarCreate
            { gzip := false, portable := true, cwd := dirname localPath }
            [basename localPath],
         CopyAction.putArchive destPath] := rfl

/-- C5 counterexample: from the reachable state in which the container has
already stopped (for example after the forced stop of the interrupt handler),
the stop call of the main epilogue yields the runtime error, container already
stopped, and the invocation fails instead of treating it as success. -/
theorem stop_on_stopped_container_fails :
    runMainTail ContainerState.stopped = Except.error "container already stopped" := rfl

/-- C5 amended: the main epilogue contains no idempotence handling around stop
and remove: it succeeds exactly from the Running state, while from a container
that is already stopped, still only created, or removed, the error response of
the runtime propagates as invocation failure. -/
theorem main_tail_succeeds_only_from_running :
    runMainTail ContainerState.running = Except.ok ContainerState.removed
    ∧ runMainTail ContainerState.stopped = Except.error "container already stopped"
    ∧ runMainTail ContainerState.created = Except.error "container already stopped"
    ∧ runMainTail ContainerState.removed = Except.error "no such container" :=
  ⟨rfl, rfl, rfl, rfl⟩

/-- C6 counterexample: on a runtime where the first exec call fails after the
container was created and started, the invocation aborts at that operation and
neither stop nor remove is ever attempted on the handle. -/
theorem failure_abandons_container_without_cleanup :
    (runOps failingExecRuntime mainOps).1 = [Op.start, Op.execCmd ["mkdir", "/app/"]]
    ∧ ((runOps failingExecRuntime mainOps).1.contains Op.stopOp) = false
    ∧ ((runOps failingExecRuntime mainOps).1.contains Op.removeOp) = false := by
  decide

/-- Membership in the attempted-operation list of a run: an operation was
attempted in op followed by rest exactly when it is op itself, or op succeeded
and it was attempted in the rest. -/
theorem mem_runOps_cons (rt : Op → Except String Unit) (a b : Op) (rest : List Op) :
    b ∈ (runOps rt (a :: rest)).1
      ↔ b = a ∨ (rt a = Except.ok () ∧ b ∈ (runOps rt rest).1) := by
  cases h : rt a with
  | ok u =>
      cases u
      simp [runOps, h]
  | error e =>
      simp [runOps, h]

/-- C6 amended: main has no error handling, so the invocation attempts stop
only on runs where every preceding operation — start, the mkdir exec, both
copies and the final exec — succeeded; on any earlier failure it abandons the
container without attempting stop or remove. -/
theorem stop_attempted_only_after_full_success (rt : Op → Except String Unit)
    (h : Op.stopOp ∈ (runOps rt mainOps).1) :
    rt Op.start = Except.ok ()
    ∧ rt (Op.execCmd ["mkdir", "/app/"]) = Except.ok ()
    ∧ rt (Op.copy "./build/build.sh" "/app/") = Except.ok ()
    ∧ rt (Op.copy "./create_github_repo.sh" "/app/") = Except.ok ()
    ∧ rt (Op.execCmd ["bash", "/app/create_github_repo.sh"]) = Except.ok () := by
  simp only [mainOps] at h
  rw [mem_runOps_cons] at h
  rcases h with h | ⟨h1, h⟩
  · exact absurd h (by decide)
  rw [mem_runOps_cons] at h
  rcases h with h | ⟨h2, h⟩
  · exact absurd h (by decide)
  rw [mem_runOps_cons] at h
  rcases h with h | ⟨h3, h⟩
  · exact absurd h (by decide)
  rw [mem_runOps_cons] at h
  rcases h with h | ⟨h4, h⟩
  · exact absurd h (by decide)
  rw [mem_runOps_cons] at h
  rcases h with h | ⟨h5, h⟩
  · exact absurd h (by decide)
  exact ⟨h1, h2, h3, h4, h5⟩

/-- Witness for the amended C6 theorem: on the all-success runtime, stop is
attempted and every preceding operation indeed succeeded. -/
theorem stop_attempted_only_after_full_success_witness :
    Op.stopOp ∈ (runOps allOkRuntime mainOps).1
    ∧ (allOkRuntime Op.start = Except.ok ()
       ∧ allOkRuntime (Op.execCmd ["mkdir", "/app/"]) = Except.ok ()
       ∧ allOkRuntime (Op.copy "./build/build.sh" "/app/") = Except.ok ()
       ∧ allOkRuntime (Op.copy "./create_github_repo.sh" "/app/") = Except.ok ()
       ∧ allOkRuntime (Op.execCmd ["bash", "/app/create_github_repo.sh"]) = Except.ok ()) :=
  ⟨by decide, stop_attempted_only_after_full_success allOkRuntime (by decide)⟩

/-- C7 counterexample: an interrupt received while the container is still in
the Created state makes the forced stop of the handler fail with the runtime
error, container already stopped; the handler has no error handling, so the
rejection is unhandled and the invocation is not protected from crashing. -/
theorem interrupt_while_created_is_unhandled :
    sigintHandlerCrashes ContainerState.created = true := rfl

/-- C7 amended: an interrupt received while the container is Running
transitions it to Stopped through the stop call of the handler, whose options
carry force true; an interrupt received while the container is still Created
makes that stop call fail with container already stopped, and the handler body
leaves the resulting rejection unhandled. -/
theorem interrupt_running_stops_created_fails :
    sigintHandlerRun ContainerState.running = Except.ok ContainerState.stopped
    ∧ registeredHandler.stopOptions.force = true
    ∧ sigintHandlerRun ContainerState.created = Except.error "container already stopped" :=
  ⟨rfl, rfl, rfl⟩

/-- C8: for every filesystem on which localPath exists, copyFileToContainer
builds the archive rooted at dirname localPath with exactly the single entry
basename localPath, uncompressed and portable, and submits it to the
archive-extraction capability targeting destPath. -/
theorem copy_builds_single_entry_archive (fs : String → Bool)
    (localPath destPath : String) (hExists : fs localPath = true) :
    copyFileToContainer fs localPath destPath
      = [CopyAction.tarCreate
            { gzip := false, portable := true, cwd := dirname localPath }
            [basename localPath],
         CopyAction.putArchive destPath] := rfl

/-- Witness for the C8 theorem at the concrete build-script path copied by
main: the file exists on the given filesystem and the archive is rooted at its
parent directory with its base name as the only entry. -/
theorem copy_builds_single_entry_archive_witness :
    (fun p => p == "./build/build.sh") "./build/build.sh" = true
    ∧ copyFileToContainer (fun p => p == "./build/build.sh") "./build/build.sh" "/app/"
      = [CopyAction.tarCreate { gzip := false, portable := true, cwd := "./build" }
            ["build.sh"],
         CopyAction.putArchive "/app/"] :=
  ⟨by decide, by
    rw [copy_builds_single_entry_archive (fun p => p == "./build/build.sh")
      "./build/build.sh" "/app/" (by decide)]
    decide⟩

/-- C9: createContainer requests a container instantiated from the given image
tag, with the environment injected, a pseudo-terminal allocated, standard
input kept open, and the entry command an interactive shell. -/
theorem createContainer_builds_interactive_request (tag : String)
    (environment : List String) :
    (createContainer tag environment).Image = tag
    ∧ (createContainer tag environment).Env = environment
    ∧ (createContainer tag environment).Tty = true
    ∧ (createContainer tag environment).OpenStdin = true
    ∧ (createContainer tag environment).Cmd = ["/bin/sh"] :=
  ⟨rfl, rfl, rfl, rfl, rfl⟩

/-- C10: the entry command of every created container is the fixed constant
/bin/sh, independent of the tag and environment arguments. -/
theorem createContainer_cmd_is_constant (tag1 tag2 : String)
    (env1 env2 : List String) :
    (createContainer tag1 env1).Cmd = ["/bin/sh"]
    ∧ (createContainer tag1 env1).Cmd = (createContainer tag2 env2).Cmd :=
  ⟨rfl, rfl⟩

end Gitwit
